import Mathlib

/-!
# inbucket daemon launcher (`inbucket.go`)

A shallow embedding of the launcher: the package-level variables become a record
that is passed explicitly, every call into a collaborator (logging facility, file
system, web / POP3 / SMTP services, process exit) is recorded as an `Action` in a
chronological trace, and the answers of the operating system are supplied by an `Env`.
-/

namespace Inbucket

/-- The signals registered with `signal.Notify` (inbucket.go:66). -/
inductive Signal
  | SIGHUP
  | SIGTERM
  deriving DecidableEq, Repr

/-- An `*os.File` of the program: the three standard streams, the file
returned by the n-th call of `os.OpenFile(*logfile, ...)`, or the file returned
by `os.Create(*pidfile)`. -/
inductive Dest
  | stderr
  | stdout
  | stdin
  | logFile (n : Nat)
  | pidFile
  deriving DecidableEq, Repr

/-- The three entry points of the logging package that the launcher calls:
`log.LogTrace`, `log.LogInfo`, `log.LogError`. -/
inductive Level
  | trace
  | info
  | error
  deriving DecidableEq, Repr

/-- One observable call made by the launcher. -/
inductive Action
  /-- Call of `fmt.Fprintf` or `fmt.Fprintln` on a file. -/
  | write (dst : Dest) (text : String)
  /-- Call of `flag.PrintDefaults()`, which prints on standard error. -/
  | printDefaults (dst : Dest)
  /-- A call of `log.LogTrace/LogInfo/LogError` while the Go logger's output is `out`. -/
  | logMsg (lvl : Level) (text : String) (out : Dest)
  | loadConfig (path : String)
  | signalNotify
  | goSignalProcessor
  | setLogLevel
  /-- Call of `golog.SetOutput`. -/
  | setOutput (dst : Dest)
  /-- Call of `os.OpenFile(*logfile, O_WRONLY|O_APPEND|O_CREATE, 0666)` and its result. -/
  | openFile (path : String) (res : Option Nat)
  /-- Call of `Close()` on a file. -/
  | close (f : Dest)
  /-- Assignments `os.Stdout = logf; os.Stderr = logf`. -/
  | redirectStd (dst : Dest)
  /-- Call of `os.Create(*pidfile)` and whether it succeeded. -/
  | createFile (path : String) (ok : Bool)
  | defaultFileDataStore
  | webInitialize
  | goWebStart
  | pop3New
  | goPop3Start
  | newSmtpServer
  | smtpStart
  | smtpStartReturn
  | smtpDrain
  | smtpDrainReturn
  | pop3Drain
  | pop3DrainReturn
  /-- Statement `go timedExit()`. -/
  | goTimedExit
  | webStop
  | smtpStop
  /-- Call of `time.Sleep(d * time.Second)`. -/
  | sleep (seconds : Nat)
  /-- The process ends with this status (`os.Exit`, or `main` returning). -/
  | exit (code : Nat)
  deriving DecidableEq, Repr

/-- Command line after `flag.Parse()` (inbucket.go:28-30, 47). -/
structure Flags where
  help : Bool
  pidfile : String
  logfile : String
  args : List String
  deriving Repr

/-- The values the flags take when they are not given on the command line. -/
def Flags.default (args : List String) : Flags :=
  { help := false, pidfile := "none", logfile := "stderr", args := args }

/-- Answers of the outside world. An error is `some text`, success is `none`. -/
structure Env where
  /-- Result of `config.LoadConfig path`. -/
  loadConfig : String → Option String
  /-- Result of the n-th call of `os.OpenFile` on the log file. -/
  openLog : Nat → Option String
  /-- Result of `os.Create path`. -/
  create : String → Option String
  /-- Result of `os.Getpid()`. -/
  pid : Int

/-- Package-level variables of inbucket.go together with the state of the Go logger
and the trace of calls made so far. -/
structure Globals where
  /-- Variable `logf`: `none` is the nil pointer. -/
  logf : Option Nat
  /-- Destination installed in the Go logger (`golog.SetOutput`); stderr by default. -/
  out : Dest
  /-- What the variable `os.Stderr` designates. -/
  osStderr : Dest
  /-- Whether `smtpServer != nil`. -/
  smtpServer : Bool
  /-- Whether `pop3Server != nil`. -/
  pop3Server : Bool
  /-- Files on which `Close()` has been called. -/
  closed : List Dest
  /-- Number of calls of `os.OpenFile` on the log file so far. -/
  opens : Nat
  /-- Calls made so far, oldest first. -/
  trace : List Action
  deriving Repr

/-- State when `main` is entered. -/
def Globals.init : Globals :=
  { logf := none, out := .stderr, osStderr := .stderr, smtpServer := false,
    pop3Server := false, closed := [], opens := 0, trace := [] }

def VERSION : String := "1.0"

def BUILD_DATE : String := "undefined"

/-- Record one call. -/
def emit (a : Action) (g : Globals) : Globals :=
  { g with trace := g.trace ++ [a] }

/-- A call into the logging package; the entry goes to the logger's current output. -/
def logAt (lvl : Level) (text : String) (g : Globals) : Globals :=
  emit (.logMsg lvl text g.out) g

/-- Function `openLogFile` (inbucket.go:130-140). `logf, err = os.OpenFile(...)` assigns nil
to `logf` when the call fails; the logger's output is only repointed on success. -/
def openLogFile (env : Env) (fl : Flags) (g : Globals) : Globals × Option String :=
  match env.openLog g.opens with
  | some err =>
    (emit (.openFile fl.logfile none) { g with logf := none, opens := g.opens + 1 },
      some ("Failed to create " ++ fl.logfile ++ ": " ++ err ++ "\n"))
  | none =>
    let g1 := emit (.openFile fl.logfile (some g.opens))
      { g with logf := some g.opens, opens := g.opens + 1 }
    let g2 := emit (.setOutput (.logFile g.opens)) { g1 with out := .logFile g.opens }
    (logAt .trace "Opened new logfile" g2, none)

/-- Function `closeLogFile` (inbucket.go:143-146). `Close` on a nil file only returns an error. -/
def closeLogFile (g : Globals) : Globals :=
  let g1 := logAt .trace "Closing logfile" g
  match g1.logf with
  | some h => emit (.close (.logFile h)) { g1 with closed := .logFile h :: g1.closed }
  | none => g1

/-- One statement of the body of the `switch` in `signalProcessor`. -/
inductive HInstr
  | log (lvl : Level) (text : String)
  | closeLog
  | openLog
  | act (a : Action)
  /-- The `if smtpServer != nil` of inbucket.go:167-171, tested when it is reached. -/
  | stopSmtpOrReport
  deriving DecidableEq, Repr

/-- Statements selected by the `switch sig` of `signalProcessor` (inbucket.go:152-172);
the test `logf != nil` is made on entry of the SIGHUP case. -/
def handlerCode (g : Globals) : Signal → List HInstr
  | .SIGHUP =>
    if g.logf.isSome then
      [.log .info "Recieved SIGHUP, cycling logfile", .closeLog, .openLog]
    else
      [.log .info "Ignoring SIGHUP, logfile not configured"]
  | .SIGTERM =>
    [.log .info "Received SIGTERM, shutting down", .act .goTimedExit, .act .webStop,
      .stopSmtpOrReport]

/-- Execute one statement of the handler. The error returned by `openLogFile` is
dropped, as at inbucket.go:158. -/
def execH (env : Env) (fl : Flags) (i : HInstr) (g : Globals) : Globals :=
  match i with
  | .log lvl text => logAt lvl text g
  | .closeLog => closeLogFile g
  | .openLog => (openLogFile env fl g).1
  | .act a => emit a g
  | .stopSmtpOrReport =>
    if g.smtpServer then emit .smtpStop g
    else logAt .error "smtpServer was nil during shutdown" g

/-- One iteration of the loop of `signalProcessor`: receive `sig` and run its case. -/
def handleSignal (env : Env) (fl : Flags) (g : Globals) (sig : Signal) : Globals :=
  (handlerCode g sig).foldl (fun acc i => execH env fl i acc) g

/-- Function `signalProcessor` (inbucket.go:149-174) after it has consumed the signals `sigs`
from its channel, in order. The loop has no exit. -/
def signalProcessor (env : Env) (fl : Flags) (g : Globals) (sigs : List Signal) : Globals :=
  sigs.foldl (handleSignal env fl) g

/-- Function `timedExit` (inbucket.go:177-181). -/
def timedExit (g : Globals) : Globals :=
  emit (.exit 0)
    (logAt .error "Inbucket clean shutdown timed out, forcing exit" (emit (.sleep 15) g))

/-- How a run of `main` ends, as far as the launcher itself decides it. -/
inductive Outcome
  /-- The process ended through `os.Exit code`. -/
  | exited (code : Nat)
  /-- The function `main` returned (status 0). -/
  | returned
  /-- The function `main` is blocked inside `smtpServer.Start()`. -/
  | serving
  deriving DecidableEq, Repr

/-- The function installed as `flag.Usage` by `init` (inbucket.go:184-187). -/
def usage (g : Globals) : Globals :=
  emit (.printDefaults .stderr)
    (emit (.write .stderr "Usage of inbucket [options] <conf file>:\n") g)

/-- Logging set-up of `main` (inbucket.go:73-93). The result is `none` when the log
file cannot be opened and `main` exits; otherwise the Boolean tells whether
`closeLogFile` has been deferred. -/
def configureLogging (env : Env) (fl : Flags) (g : Globals) : Globals × Option Bool :=
  if fl.logfile ≠ "stderr" then
    if fl.logfile = "stdout" then
      (emit (.setOutput .stdout) { g with out := .stdout }, some false)
    else
      match openLogFile env fl g with
      | (g1, some err) => (emit (.exit 1) (emit (.write g1.osStderr err) g1), none)
      | (g1, none) =>
        let g2 := emit (.close .stdin) (emit (.close .stderr) (emit (.close .stdout)
          { g1 with closed := .stdin :: .stderr :: .stdout :: g1.closed }))
        match g2.logf with
        | some h => (emit (.redirectStd (.logFile h)) { g2 with osStderr := .logFile h }, some true)
        | none => (g2, some true)
  else
    (g, some false)

/-- Pidfile step of `main` (inbucket.go:99-107). The result is `none` when the file
cannot be created and `main` exits; otherwise the Boolean tells whether
`pidf.Close()` has been deferred. -/
def writePidfile (env : Env) (fl : Flags) (g : Globals) : Globals × Option Bool :=
  if fl.pidfile ≠ "none" then
    match env.create fl.pidfile with
    | some err =>
      (emit (.exit 1)
        (logAt .error ("Failed to create " ++ fl.pidfile ++ ": " ++ err)
          (emit (.createFile fl.pidfile false) g)), none)
    | none =>
      (emit (.write .pidFile (toString env.pid ++ "\n"))
        (emit (.createFile fl.pidfile true) g), some true)
  else
    (g, some false)

/-- One statement of `main` from the acquisition of the data store on
(inbucket.go:110-127). -/
inductive MInstr
  | act (a : Action)
  /-- Assignment `pop3Server = pop3d.New()`. -/
  | newPop3
  /-- Assignment `smtpServer = smtpd.NewSmtpServer(...)`. -/
  | newSmtp
  /-- The point where the blocking call `smtpServer.Start()` returns. -/
  | startReturns
  /-- Return of `main`: the deferred calls run and the process ends with status 0. -/
  | ret
  deriving DecidableEq, Repr

/-- Statements of `main` up to and including the call of `smtpServer.Start()`
(inbucket.go:110-122). -/
def startServices : List MInstr :=
  [.act .defaultFileDataStore, .act .webInitialize, .act .goWebStart, .newPop3,
    .act .goPop3Start, .newSmtp, .act .smtpStart]

/-- Statements of `main` after the call of `smtpServer.Start()` (inbucket.go:122-127). -/
def shutdownServices : List MInstr :=
  [.startReturns, .act .smtpDrain, .act .smtpDrainReturn, .act .pop3Drain,
    .act .pop3DrainReturn, .ret]

/-- Execute one statement of `main`; `logDeferred` and `pidDeferred` tell which of
`closeLogFile()` and `pidf.Close()` were deferred during start-up (they run in
reverse order of registration when `main` returns). -/
def execM (logDeferred pidDeferred : Bool) (i : MInstr) (g : Globals) : Globals :=
  match i with
  | .act a => emit a g
  | .newPop3 => emit .pop3New { g with pop3Server := true }
  | .newSmtp => emit .newSmtpServer { g with smtpServer := true }
  | .startReturns => emit .smtpStartReturn g
  | .ret =>
    let g1 := if pidDeferred then
      emit (.close .pidFile) { g with closed := .pidFile :: g.closed } else g
    let g2 := if logDeferred then closeLogFile g1 else g1
    emit (.exit 0) g2

/-- The function `main` (inbucket.go:43-122) in a run during which no signal is
delivered: from the parsed command line to either the end of the process or the
blocking call of `smtpServer.Start()`. -/
def main (env : Env) (fl : Flags) : Globals × Outcome :=
  let g0 := Globals.init
  if fl.help then
    (usage g0, .returned)
  else if fl.args.length ≠ 1 then
    (emit (.exit 1) (usage g0), .exited 1)
  else
    let cfg := fl.args.headD ""
    let g1 := emit (.loadConfig cfg) g0
    match env.loadConfig cfg with
    | some err =>
      (emit (.exit 1) (emit (.write g1.osStderr ("Failed to parse config: " ++ err ++ "\n")) g1),
        .exited 1)
    | none =>
      let g2 := emit .setLogLevel (emit .goSignalProcessor (emit .signalNotify g1))
      match configureLogging env fl g2 with
      | (g3, none) => (g3, .exited 1)
      | (g3, some logDeferred) =>
        let g4 := logAt .info ("Inbucket " ++ VERSION ++ " (" ++ BUILD_DATE ++ ") starting...") g3
        match writePidfile env fl g4 with
        | (g5, none) => (g5, .exited 1)
        | (g5, some pidDeferred) =>
          (startServices.foldl (fun acc i => execM logDeferred pidDeferred i acc) g5, .serving)

/-! ## The goroutines together

From the acquisition of the data store on, three goroutines matter for shutdown:
`main`, `signalProcessor` and the `timedExit` goroutines. Their statements are
interleaved by a schedule; a statement that cannot run is skipped. -/

/-- The goroutines of the launcher. -/
inductive Thread
  | main
  | signal
  | watchdog
  deriving DecidableEq, Repr

/-- State of the running process. -/
structure Sys where
  g : Globals
  /-- Index in `program` of the next statement of `main`. -/
  pc : Nat
  /-- Signals sent to the channel that `signalProcessor` has not received yet. -/
  pending : List Signal
  /-- Statements left in the current iteration of `signalProcessor`. -/
  handler : List HInstr
  /-- Whether `closeLogFile()` was deferred by `main`. -/
  logDeferred : Bool
  /-- Whether `pidf.Close()` was deferred by `main`. -/
  pidDeferred : Bool
  /-- Whether the process has ended. -/
  halted : Bool
  deriving Repr

/-- Statements of `main` from inbucket.go:110 to its end. -/
def program : List MInstr := startServices ++ shutdownServices

/-- Modelled from the spec: `smtpd.Server.Start`, which is not among the sources. It
"blocks the calling thread of control until shutdown completes" and returns "because
`Stop()` was invoked" (sections 4.1 and 4.5), so its return is possible only once
`smtpServer.Stop()` has been called. -/
def startMayReturn (g : Globals) : Bool :=
  g.trace.contains .smtpStop

/-- Whether `main` can execute the statement now. -/
def enabledM (i : MInstr) (g : Globals) : Bool :=
  match i with
  | .startReturns => startMayReturn g
  | _ => true

/-- One step of the chosen goroutine; the state is unchanged when it cannot move.
A `timedExit` goroutine exists once `go timedExit()` has run; the time it sleeps is
not represented, so it may fire at any later step. -/
def step (env : Env) (fl : Flags) (t : Thread) (s : Sys) : Sys :=
  if s.halted then s
  else
    match t with
    | .main =>
      match program[s.pc]? with
      | none => s
      | some i =>
        if enabledM i s.g then
          { s with g := execM s.logDeferred s.pidDeferred i s.g, pc := s.pc + 1,
                   halted := decide (i = .ret) }
        else s
    | .signal =>
      match s.handler with
      | i :: rest => { s with g := execH env fl i s.g, handler := rest }
      | [] =>
        match s.pending with
        | [] => s
        | sig :: ps => { s with pending := ps, handler := handlerCode s.g sig }
    | .watchdog =>
      if s.g.trace.contains .goTimedExit then { s with g := timedExit s.g, halted := true }
      else s

/-- Run the process along a schedule. -/
def run (env : Env) (fl : Flags) (sched : List Thread) (s : Sys) : Sys :=
  sched.foldl (fun acc t => step env fl t acc) s

/-- The process when `main` reaches inbucket.go:110, with the signals that will be
delivered to it. -/
def boot (g0 : Globals) (logDeferred pidDeferred : Bool) (pending : List Signal) : Sys :=
  { g := g0, pc := 0, pending := pending, handler := [], logDeferred := logDeferred,
    pidDeferred := pidDeferred, halted := false }

/-! ## Vocabulary of the statements -/

/-- Every occurrence of the call `a` in the trace has, before it, the calls of `before`
in this order. -/
def ComesAfter (before : List Action) (a : Action) (tr : List Action) : Prop :=
  ∀ p q, tr = p ++ a :: q → List.Sublist before p

/-- Whether the call writes to the file `d` (directly, or as an entry of the logger). -/
def writesTo (d : Dest) : Action → Bool
  | .write d2 _ => decide (d2 = d)
  | .printDefaults d2 => decide (d2 = d)
  | .logMsg _ _ d2 => decide (d2 = d)
  | _ => false

/-- Whether the call starts one of the web, POP3 and SMTP services. -/
def startsService : Action → Bool
  | .goWebStart => true
  | .goPop3Start => true
  | .smtpStart => true
  | _ => false

/-- The texts written with `fmt.Fprintf` to the file `d`, in order. -/
def written (d : Dest) (tr : List Action) : List String :=
  tr.filterMap fun a =>
    match a with
    | .write d2 t => if d2 = d then some t else none
    | _ => none

/-- Output of the Go logger once the logging set-up of `main` (inbucket.go:73-93) has
succeeded: stderr is the default, `-logfile stdout` selects stdout, any other value is
the log file opened first. -/
def logDest (fl : Flags) : Dest :=
  if fl.logfile = "stderr" then .stderr
  else if fl.logfile = "stdout" then .stdout
  else .logFile 0

/-- Statements of the handler that call neither a Drain nor `smtpServer.Stop()`. -/
def okH : HInstr → Bool
  | .act a => decide (a = .goTimedExit ∨ a = .webStop)
  | _ => true

/-- In the handler, the test of `smtpServer` directly follows the call of `web.Stop()`. -/
def stopFollowsWebStop (x y : HInstr) : Prop :=
  y = .stopSmtpOrReport → x = .act .webStop

/-- What holds of every state the process reaches. -/
structure Inv (s : Sys) : Prop where
  stopAfterWeb : Action.smtpStop ∈ s.g.trace → List.Sublist [.webStop, .smtpStop] s.g.trace
  drainSmtp : ComesAfter [.webStop, .smtpStop] .smtpDrain s.g.trace
  drainPop3 : ComesAfter [.webStop, .smtpStop, .smtpDrain, .smtpDrainReturn] .pop3Drain s.g.trace
  handlerOk : ∀ i ∈ s.handler, okH i = true
  handlerChain : List.Chain' stopFollowsWebStop s.handler
  handlerHead : s.handler.head? = some .stopSmtpOrReport → Action.webStop ∈ s.g.trace
  pc8 : 8 ≤ s.pc → List.Sublist [.webStop, .smtpStop] s.g.trace
  pc9 : 9 ≤ s.pc → List.Sublist [.webStop, .smtpStop, .smtpDrain] s.g.trace
  pc10 : 10 ≤ s.pc → List.Sublist [.webStop, .smtpStop, .smtpDrain, .smtpDrainReturn] s.g.trace

/-! ## Sample inputs -/

/-- An environment in which every call succeeds. -/
def okEnv : Env :=
  { loadConfig := fun _ => none, openLog := fun _ => none, create := fun _ => none, pid := 4242 }

/-- An environment in which the log file can be opened at start-up but not again. -/
def rotationFailsEnv : Env :=
  { okEnv with openLog := fun n => if n = 0 then none else some "permission denied" }

/-- An environment in which no file can be created. -/
def createFailsEnv : Env :=
  { okEnv with create := fun _ => some "permission denied" }

/-- Command line `inbucket inbucket.conf`. -/
def plainFlags : Flags := Flags.default ["inbucket.conf"]

/-- State once `main` has constructed the SMTP server, before any signal. -/
def servingGlobals : Globals := (main okEnv plainFlags).1

/-- A schedule of a normal shutdown: `main` starts the services and blocks in
`smtpServer.Start()`, the handler processes one SIGTERM, `main` drains and returns. -/
def normalShutdown : List Thread :=
  List.replicate 7 .main ++ List.replicate 5 .signal ++ List.replicate 6 .main

/-- A schedule in which a second SIGTERM is handled while `main` is inside
`smtpServer.Drain()`: start of the services, first SIGTERM, return of `Start()` and call
of `Drain()`, second SIGTERM, rest of `main`. -/
def sigtermDuringDrain : List Thread :=
  List.replicate 7 .main ++ List.replicate 5 .signal ++ List.replicate 2 .main ++
    List.replicate 5 .signal ++ List.replicate 4 .main

/-- No call of `web.Stop()` or `smtpServer.Stop()` in the trace comes after a call of
`smtpServer.Drain()` or `pop3Server.Drain()`. -/
def StopsPrecedeDrains (tr : List Action) : Prop :=
  ∀ p q, (tr = p ++ Action.webStop :: q ∨ tr = p ++ Action.smtpStop :: q) →
    Action.smtpDrain ∉ p ∧ Action.pop3Drain ∉ p

/-! ## The signal handler, one iteration -/

theorem signalProcessor_cons (env : Env) (fl : Flags) (g : Globals) (sig : Signal)
    (rest : List Signal) :
    signalProcessor env fl g (sig :: rest) =
      signalProcessor env fl (handleSignal env fl g sig) rest := rfl

theorem handleSignal_sigterm (env : Env) (fl : Flags) (g : Globals) :
    handleSignal env fl g .SIGTERM =
      { g with trace := g.trace ++
          [.logMsg .info "Received SIGTERM, shutting down" g.out, .goTimedExit, .webStop,
            if g.smtpServer then .smtpStop
            else .logMsg .error "smtpServer was nil during shutdown" g.out] } := by
  cases h : g.smtpServer <;>
    simp [handleSignal, handlerCode, execH, emit, logAt, h]

theorem handleSignal_sighup_nil (env : Env) (fl : Flags) (g : Globals) (h : g.logf = none) :
    handleSignal env fl g .SIGHUP =
      { g with trace := g.trace ++
          [.logMsg .info "Ignoring SIGHUP, logfile not configured" g.out] } := by
  simp [handleSignal, handlerCode, execH, emit, logAt, h]

theorem handleSignal_smtpServer (env : Env) (fl : Flags) (g : Globals) (sig : Signal) :
    (handleSignal env fl g sig).smtpServer = g.smtpServer := by
  cases sig
  · cases h : g.logf <;> cases h2 : env.openLog g.opens <;>
      simp [handleSignal, handlerCode, execH, emit, logAt, closeLogFile, openLogFile, h, h2]
  · rw [handleSignal_sigterm]

theorem count_handleSignal_sighup (env : Env) (fl : Flags) (g : Globals) (a : Action)
    (ha : a = .webStop ∨ a = .smtpStop ∨ a = .goTimedExit) :
    (handleSignal env fl g .SIGHUP).trace.count a = g.trace.count a := by
  rcases ha with rfl | rfl | rfl <;>
    cases h : g.logf <;> cases h2 : env.openLog g.opens <;>
      simp [handleSignal, handlerCode, execH, emit, logAt, closeLogFile, openLogFile, h, h2,
        List.count_cons]

theorem count_webStop_handleSignal (env : Env) (fl : Flags) (g : Globals) (sig : Signal) :
    (handleSignal env fl g sig).trace.count .webStop =
      g.trace.count .webStop + [sig].count .SIGTERM := by
  cases sig
  · rw [count_handleSignal_sighup env fl g _ (Or.inl rfl)]; simp
  · rw [handleSignal_sigterm]
    cases h : g.smtpServer <;> simp [List.count_cons]

theorem count_goTimedExit_handleSignal (env : Env) (fl : Flags) (g : Globals) (sig : Signal) :
    (handleSignal env fl g sig).trace.count .goTimedExit =
      g.trace.count .goTimedExit + [sig].count .SIGTERM := by
  cases sig
  · rw [count_handleSignal_sighup env fl g _ (Or.inr (Or.inr rfl))]; simp
  · rw [handleSignal_sigterm]
    cases h : g.smtpServer <;> simp [List.count_cons]

theorem count_smtpStop_handleSignal (env : Env) (fl : Flags) (g : Globals) (sig : Signal)
    (hs : g.smtpServer = true) :
    (handleSignal env fl g sig).trace.count .smtpStop =
      g.trace.count .smtpStop + [sig].count .SIGTERM := by
  cases sig
  · rw [count_handleSignal_sighup env fl g _ (Or.inr (Or.inl rfl))]; simp
  · rw [handleSignal_sigterm]
    simp [List.count_cons, hs]

/-! ## Claims about `signalProcessor` -/

/-- C1 (as stated, refuted): with the SMTP server constructed, two SIGTERM signals make
`signalProcessor` call `web.Stop()` twice and `smtpServer.Stop()` twice, not once each. -/
theorem sigterm_twice_stops_twice :
    (signalProcessor okEnv plainFlags
        servingGlobals [.SIGTERM, .SIGTERM]).trace.count .webStop = 2 ∧
    (signalProcessor okEnv plainFlags
        servingGlobals [.SIGTERM, .SIGTERM]).trace.count .smtpStop = 2 := by
  decide

/-- C1 (amended): with the SMTP server constructed, processing any finite sequence of
signals adds exactly one `web.Stop()` call and exactly one `smtpServer.Stop()` call per
SIGTERM in the sequence. -/
theorem stop_calls_count_sigterms (env : Env) (fl : Flags) (g : Globals) (sigs : List Signal)
    (hs : g.smtpServer = true) :
    (signalProcessor env fl g sigs).trace.count .webStop =
        g.trace.count .webStop + sigs.count .SIGTERM ∧
    (signalProcessor env fl g sigs).trace.count .smtpStop =
        g.trace.count .smtpStop + sigs.count .SIGTERM := by
  induction sigs generalizing g with
  | nil => simp [signalProcessor]
  | cons sig rest ih =>
    have h1 := ih (handleSignal env fl g sig)
      (by rw [handleSignal_smtpServer]; exact hs)
    rw [signalProcessor_cons, h1.1, h1.2, count_webStop_handleSignal,
      count_smtpStop_handleSignal env fl g sig hs]
    have : (sig :: rest).count Signal.SIGTERM = [sig].count .SIGTERM + rest.count .SIGTERM := by
      rw [← List.count_append]; rfl
    omega

theorem stop_calls_count_sigterms_witness :
    servingGlobals.smtpServer = true ∧
    (signalProcessor okEnv plainFlags
        servingGlobals [.SIGHUP, .SIGTERM, .SIGTERM, .SIGTERM]).trace.count
          .webStop = 0 + 3 :=
  ⟨rfl, (stop_calls_count_sigterms _ _ _ [.SIGHUP, .SIGTERM, .SIGTERM, .SIGTERM] rfl).1⟩

/-- C2 (as stated, refuted): two SIGTERM signals spawn two `timedExit` goroutines. -/
theorem sigterm_twice_spawns_two_timers :
    (signalProcessor okEnv plainFlags
        Globals.init [.SIGTERM, .SIGTERM]).trace.count .goTimedExit = 2 := by
  decide

/-- C2 (amended): processing any finite sequence of signals spawns exactly one `timedExit`
goroutine per SIGTERM in the sequence. -/
theorem timers_count_sigterms (env : Env) (fl : Flags) (g : Globals) (sigs : List Signal) :
    (signalProcessor env fl g sigs).trace.count .goTimedExit =
        g.trace.count .goTimedExit + sigs.count .SIGTERM := by
  induction sigs generalizing g with
  | nil => simp [signalProcessor]
  | cons sig rest ih =>
    rw [signalProcessor_cons, ih, count_goTimedExit_handleSignal]
    have : (sig :: rest).count Signal.SIGTERM = [sig].count .SIGTERM + rest.count .SIGTERM := by
      rw [← List.count_append]; rfl
    omega

/-- C4: while no log file is configured, a sequence made only of SIGHUP signals leaves
every variable as it was and adds to the trace exactly one informational log entry per
signal and nothing else (no close, no open, no exit). -/
theorem sighup_without_logfile (env : Env) (fl : Flags) (g : Globals) (sigs : List Signal)
    (hl : g.logf = none) (hs : ∀ s ∈ sigs, s = Signal.SIGHUP) :
    signalProcessor env fl g sigs =
      { g with trace := (g.trace ++ List.replicate sigs.length
          (Action.logMsg .info "Ignoring SIGHUP, logfile not configured" g.out)) } := by
  induction sigs generalizing g with
  | nil => simp [signalProcessor]
  | cons sig rest ih =>
    have hsig : sig = .SIGHUP := hs sig (List.mem_cons_self _ _)
    subst hsig
    rw [signalProcessor_cons, handleSignal_sighup_nil env fl g hl,
      ih _ (by exact hl) (fun s h => hs s (List.mem_cons_of_mem _ h))]
    simp [List.replicate_succ]

theorem sighup_without_logfile_witness :
    signalProcessor okEnv plainFlags
        Globals.init [.SIGHUP, .SIGHUP] =
      { Globals.init with trace := (Globals.init.trace ++ List.replicate 2
          (Action.logMsg .info "Ignoring SIGHUP, logfile not configured" Globals.init.out)) } :=
  sighup_without_logfile _ _ Globals.init [.SIGHUP, .SIGHUP] rfl (by decide)

/-- C10: a SIGTERM processed while `smtpServer` is nil logs the shutdown, spawns
`timedExit`, calls `web.Stop()`, logs the error that the SMTP server was nil, calls
nothing else (no `smtpServer.Stop()`, no exit), and the loop goes on with the next
signal. -/
theorem sigterm_before_smtp_constructed (env : Env) (fl : Flags) (g : Globals)
    (rest : List Signal) (hs : g.smtpServer = false) :
    handleSignal env fl g .SIGTERM =
      { g with trace := g.trace ++
          [.logMsg .info "Received SIGTERM, shutting down" g.out, .goTimedExit, .webStop,
            .logMsg .error "smtpServer was nil during shutdown" g.out] } ∧
    signalProcessor env fl g (.SIGTERM :: rest) =
      signalProcessor env fl (handleSignal env fl g .SIGTERM) rest := by
  refine ⟨?_, rfl⟩
  rw [handleSignal_sigterm]; simp [hs]

theorem sigterm_before_smtp_constructed_witness :
    Globals.init.smtpServer = false ∧
    (signalProcessor okEnv plainFlags
        Globals.init [.SIGTERM, .SIGHUP]).trace =
      [.logMsg .info "Received SIGTERM, shutting down" .stderr, .goTimedExit, .webStop,
        .logMsg .error "smtpServer was nil during shutdown" .stderr,
        .logMsg .info "Ignoring SIGHUP, logfile not configured" .stderr] := by
  have h := sigterm_before_smtp_constructed okEnv
    plainFlags Globals.init [.SIGHUP] rfl
  refine ⟨rfl, ?_⟩
  rw [h.2, h.1]
  decide

/-- C3 (the code at the failing input): the daemon runs with `-logfile inbucket.log`
and the log file cannot be reopened. Handling SIGHUP logs the rotation, closes the
handle, and the failed open is followed by no call at all: nothing is logged about the
failure, `logf` is nil, and the logger's output is still the handle that was just
closed, where the next log entry is sent. -/
theorem rotation_failure_unreported :
    (handleSignal rotationFailsEnv { plainFlags with logfile := "inbucket.log" }
        (main rotationFailsEnv { plainFlags with logfile := "inbucket.log" }).1 .SIGHUP).trace =
      (main rotationFailsEnv { plainFlags with logfile := "inbucket.log" }).1.trace ++
        [.logMsg .info "Recieved SIGHUP, cycling logfile" (.logFile 0),
          .logMsg .trace "Closing logfile" (.logFile 0), .close (.logFile 0),
          .openFile "inbucket.log" none] ∧
    (handleSignal rotationFailsEnv { plainFlags with logfile := "inbucket.log" }
        (main rotationFailsEnv { plainFlags with logfile := "inbucket.log" }).1 .SIGHUP).logf = none ∧
    (handleSignal rotationFailsEnv { plainFlags with logfile := "inbucket.log" }
        (main rotationFailsEnv { plainFlags with logfile := "inbucket.log" }).1 .SIGHUP).out =
      .logFile 0 ∧
    Dest.logFile 0 ∈ (handleSignal rotationFailsEnv { plainFlags with logfile := "inbucket.log" }
        (main rotationFailsEnv { plainFlags with logfile := "inbucket.log" }).1 .SIGHUP).closed ∧
    (signalProcessor rotationFailsEnv { plainFlags with logfile := "inbucket.log" }
        (main rotationFailsEnv { plainFlags with logfile := "inbucket.log" }).1
        [.SIGHUP, .SIGHUP]).trace.getLast? =
      some (.logMsg .info "Ignoring SIGHUP, logfile not configured" (.logFile 0)) := by
  decide

/-! ## Claims about the start-up of `main` -/

/-- C6: without `-help`, when the number of positional arguments is not one, `main`
prints the usage text on standard error and exits with status 1, and these are all the
calls it makes: no configuration is loaded, no signal handler installed, no service
started. -/
theorem usage_on_wrong_arg_count (env : Env) (fl : Flags) (hh : fl.help = false)
    (ha : fl.args.length ≠ 1) :
    main env fl =
      ({ Globals.init with trace :=
          [.write .stderr "Usage of inbucket [options] <conf file>:\n",
            .printDefaults .stderr, .exit 1] }, .exited 1) := by
  simp [main, hh, ha, usage, emit, Globals.init]

theorem usage_on_wrong_arg_count_witness :
    (main okEnv (Flags.default [])).2 = .exited 1 ∧
    (main okEnv (Flags.default ["a.conf", "b.conf"])).1.trace =
      [.write .stderr "Usage of inbucket [options] <conf file>:\n",
        .printDefaults .stderr, .exit 1] :=
  ⟨congrArg Prod.snd (usage_on_wrong_arg_count okEnv (Flags.default []) rfl (by decide)),
    congrArg (fun r => r.1.trace)
      (usage_on_wrong_arg_count okEnv (Flags.default ["a.conf", "b.conf"]) rfl (by decide))⟩

/-- C7 (as stated, refuted): with `-logfile stdout`, a pidfile that cannot be created
makes `main` exit with status 1 without any write to standard error. -/
theorem pidfile_failure_not_on_stderr :
    (main createFailsEnv { plainFlags with logfile := "stdout", pidfile := "inbucket.pid" }).2 =
      .exited 1 ∧
    (main createFailsEnv
      { plainFlags with logfile := "stdout", pidfile := "inbucket.pid" }).1.trace.any
        (writesTo .stderr) = false ∧
    Action.logMsg .error "Failed to create inbucket.pid: permission denied" .stdout ∈
      (main createFailsEnv
        { plainFlags with logfile := "stdout", pidfile := "inbucket.pid" }).1.trace := by
  decide

/-- C7 (amended): every fatal start-up error makes `main` exit with status 1 before any
service is started, after a diagnostic: written on standard error when the
configuration cannot be loaded or the log file cannot be opened, and passed to the
logging facility when the pidfile cannot be created, whose output is standard error
only for `-logfile stderr` (it is standard output for `-logfile stdout` and the log
file otherwise). -/
theorem fatal_startup_errors (env : Env) (fl : Flags) (cfg : String) (hh : fl.help = false)
    (ha : fl.args = [cfg]) :
    (∀ e, env.loadConfig cfg = some e →
      (main env fl).2 = .exited 1 ∧
      Action.write .stderr ("Failed to parse config: " ++ e ++ "\n") ∈ (main env fl).1.trace ∧
      (main env fl).1.trace.any startsService = false) ∧
    (∀ e, env.loadConfig cfg = none → fl.logfile ≠ "stderr" → fl.logfile ≠ "stdout" →
      env.openLog 0 = some e →
      (main env fl).2 = .exited 1 ∧
      Action.write .stderr ("Failed to create " ++ fl.logfile ++ ": " ++ e ++ "\n") ∈
        (main env fl).1.trace ∧
      (main env fl).1.trace.any startsService = false) ∧
    (∀ e, env.loadConfig cfg = none →
      (fl.logfile = "stderr" ∨ fl.logfile = "stdout" ∨ env.openLog 0 = none) →
      fl.pidfile ≠ "none" → env.create fl.pidfile = some e →
      (main env fl).2 = .exited 1 ∧
      Action.logMsg .error ("Failed to create " ++ fl.pidfile ++ ": " ++ e) (logDest fl) ∈
        (main env fl).1.trace ∧
      (main env fl).1.trace.any startsService = false) := by
  refine ⟨?_, ?_, ?_⟩
  · intro e he
    simp [main, hh, ha, he, emit, Globals.init, startsService]
  · intro e hc h1 h2 ho
    simp [main, hh, ha, hc, configureLogging, h1, h2, openLogFile, ho, emit, Globals.init,
      startsService]
  · intro e hc hl hp hcr
    by_cases h1 : fl.logfile = "stderr"
    · simp [main, hh, ha, hc, configureLogging, h1, writePidfile, hp, hcr, emit, logAt,
        Globals.init, startsService, logDest]
    · by_cases h2 : fl.logfile = "stdout"
      · simp [main, hh, ha, hc, configureLogging, h2, writePidfile, hp, hcr, emit, logAt,
          Globals.init, startsService, logDest]
      · have ho : env.openLog 0 = none := by
          rcases hl with h | h | h
          · exact absurd h h1
          · exact absurd h h2
          · exact h
        simp [main, hh, ha, hc, configureLogging, h1, h2, openLogFile, ho, writePidfile, hp,
          hcr, emit, logAt, Globals.init, startsService, logDest]

theorem fatal_startup_errors_witness :
    (main createFailsEnv { plainFlags with pidfile := "inbucket.pid" }).2 = .exited 1 ∧
    Action.logMsg .error ("Failed to create " ++ "inbucket.pid" ++ ": " ++ "permission denied")
        .stderr ∈ (main createFailsEnv { plainFlags with pidfile := "inbucket.pid" }).1.trace ∧
    (main createFailsEnv { plainFlags with pidfile := "inbucket.pid" }).1.trace.any
      startsService = false :=
  (fatal_startup_errors createFailsEnv { plainFlags with pidfile := "inbucket.pid" }
    "inbucket.conf" rfl rfl).2.2 "permission denied" rfl (Or.inl rfl) (by decide) rfl

/-- C8: when `-pidfile` keeps its default `none`, `main` creates no file and writes no
pidfile; when it names a path and start-up gets as far as creating that file
successfully, `main` writes to it the decimal process ID followed by one newline, and
nothing else. -/
theorem pidfile_contents (env : Env) (fl : Flags) :
    (fl.pidfile = "none" →
      (∀ p ok, Action.createFile p ok ∉ (main env fl).1.trace) ∧
      written .pidFile (main env fl).1.trace = []) ∧
    (∀ cfg, fl.help = false → fl.args = [cfg] → env.loadConfig cfg = none →
      (fl.logfile = "stderr" ∨ fl.logfile = "stdout" ∨ env.openLog 0 = none) →
      fl.pidfile ≠ "none" → env.create fl.pidfile = none →
      Action.createFile fl.pidfile true ∈ (main env fl).1.trace ∧
      written .pidFile (main env fl).1.trace = [toString env.pid ++ "\n"]) := by
  constructor
  · intro hp
    by_cases hh : fl.help = true
    · simp [main, hh, usage, emit, Globals.init, written]
    · by_cases ha : fl.args.length = 1
      · obtain ⟨cfg, ha⟩ := List.length_eq_one.mp ha
        cases hc : env.loadConfig cfg with
        | some e => simp [main, hh, ha, hc, emit, Globals.init, written]
        | none =>
          by_cases h1 : fl.logfile = "stderr"
          · simp [main, hh, ha, hc, configureLogging, h1, writePidfile, hp, emit, logAt,
              Globals.init, written, startServices, execM]
          · by_cases h2 : fl.logfile = "stdout"
            · simp [main, hh, ha, hc, configureLogging, h2, writePidfile, hp, emit, logAt,
                Globals.init, written, startServices, execM]
            · cases ho : env.openLog 0 <;>
                simp [main, hh, ha, hc, configureLogging, h1, h2, openLogFile, ho, writePidfile,
                  hp, emit, logAt, Globals.init, written, startServices, execM]
      · simp [main, hh, ha, usage, emit, Globals.init, written]
  · intro cfg hh ha hc hl hp hcr
    by_cases h1 : fl.logfile = "stderr"
    · simp [main, hh, ha, hc, configureLogging, h1, writePidfile, hp, hcr, emit, logAt,
        Globals.init, written, startServices, execM]
    · by_cases h2 : fl.logfile = "stdout"
      · simp [main, hh, ha, hc, configureLogging, h2, writePidfile, hp, hcr, emit, logAt,
          Globals.init, written, startServices, execM]
      · have ho : env.openLog 0 = none := by
          rcases hl with h | h | h
          · exact absurd h h1
          · exact absurd h h2
          · exact h
        simp [main, hh, ha, hc, configureLogging, h1, h2, openLogFile, ho, writePidfile, hp,
          hcr, emit, logAt, Globals.init, written, startServices, execM]

theorem pidfile_contents_witness :
    Action.createFile "inbucket.pid" true ∈
        (main okEnv { plainFlags with pidfile := "inbucket.pid" }).1.trace ∧
    written .pidFile (main okEnv { plainFlags with pidfile := "inbucket.pid" }).1.trace =
      ["4242\n"] ∧
    written .pidFile (main okEnv plainFlags).1.trace = [] :=
  ⟨((pidfile_contents okEnv { plainFlags with pidfile := "inbucket.pid" }).2 "inbucket.conf"
      rfl rfl rfl (Or.inl rfl) (by decide) rfl).1,
    ((pidfile_contents okEnv { plainFlags with pidfile := "inbucket.pid" }).2 "inbucket.conf"
      rfl rfl rfl (Or.inl rfl) (by decide) rfl).2,
    ((pidfile_contents okEnv plainFlags).1 rfl).2⟩

/-! ## Order of the lifecycle calls -/

theorem comesAfter_append {before : List Action} {a : Action} {tr : List Action}
    (h : ComesAfter before a tr) (added : List Action) (ha : a ∉ added) :
    ComesAfter before a (tr ++ added) := by
  intro p q hpq
  rcases List.append_eq_append_iff.mp hpq with ⟨m, hm, hadd⟩ | ⟨m, hm, hadd⟩
  · exact absurd (by rw [hadd]; simp) ha
  · cases m with
    | nil => exact absurd (by rw [← List.nil_append added, ← hadd]; simp) ha
    | cons x m =>
      simp only [List.cons_append, List.cons.injEq] at hadd
      exact h p m (by rw [hm, hadd.1])

theorem comesAfter_concat {before : List Action} {a : Action} {tr : List Action}
    (h : ComesAfter before a tr) (hs : List.Sublist before tr) :
    ComesAfter before a (tr ++ [a]) := by
  intro p q hpq
  rcases List.append_eq_append_iff.mp hpq with ⟨m, hm, hadd⟩ | ⟨m, hm, hadd⟩
  · cases m with
    | nil => simpa [hm] using hs
    | cons x m => simp at hadd
  · cases m with
    | nil => simpa [hm] using hs
    | cons x m =>
      simp only [List.cons_append, List.cons.injEq] at hadd
      exact h p m (by rw [hm, hadd.1])

/-- What one statement of the handler adds to the trace. -/
theorem execH_trace (env : Env) (fl : Flags) (i : HInstr) (g : Globals) (hok : okH i = true) :
    ∃ added, (execH env fl i g).trace = g.trace ++ added ∧
      Action.smtpDrain ∉ added ∧ Action.pop3Drain ∉ added ∧
      (Action.smtpStop ∈ added → i = .stopSmtpOrReport ∧ added = [.smtpStop]) ∧
      (i = .act .webStop → Action.webStop ∈ added) := by
  cases i with
  | log lvl text => exact ⟨[.logMsg lvl text g.out], by simp [execH, logAt, emit]⟩
  | closeLog =>
    cases h : g.logf with
    | none =>
      exact ⟨[.logMsg .trace "Closing logfile" g.out], by simp [execH, closeLogFile, logAt, emit, h]⟩
    | some n =>
      exact ⟨[.logMsg .trace "Closing logfile" g.out, .close (.logFile n)],
        by simp [execH, closeLogFile, logAt, emit, h]⟩
  | openLog =>
    cases h : env.openLog g.opens with
    | some e => exact ⟨[.openFile fl.logfile none], by simp [execH, openLogFile, emit, h]⟩
    | none =>
      exact ⟨[.openFile fl.logfile (some g.opens), .setOutput (.logFile g.opens),
        .logMsg .trace "Opened new logfile" (.logFile g.opens)],
        by simp [execH, openLogFile, logAt, emit, h]⟩
  | act a =>
    refine ⟨[a], by simp [execH, emit], ?_⟩
    simp only [okH, decide_eq_true_eq] at hok
    rcases hok with rfl | rfl <;> simp
  | stopSmtpOrReport =>
    cases h : g.smtpServer with
    | true => exact ⟨[.smtpStop], by simp [execH, emit, h]⟩
    | false =>
      exact ⟨[.logMsg .error "smtpServer was nil during shutdown" g.out],
        by simp [execH, logAt, emit, h]⟩

/-- Every case of the handler is a list of statements of the expected shape. -/
theorem handlerCode_ok (g : Globals) (sig : Signal) :
    (∀ i ∈ handlerCode g sig, okH i = true) ∧
    List.Chain' stopFollowsWebStop (handlerCode g sig) ∧
    (handlerCode g sig).head? ≠ some .stopSmtpOrReport := by
  cases sig
  · cases h : g.logf <;> simp [handlerCode, h, okH, stopFollowsWebStop]
  · simp [handlerCode, okH, stopFollowsWebStop]

/-- What `timedExit` adds to the trace. -/
theorem timedExit_trace (g : Globals) :
    (timedExit g).trace = g.trace ++
      [.sleep 15, .logMsg .error "Inbucket clean shutdown timed out, forcing exit" g.out,
        .exit 0] := by
  simp [timedExit, emit, logAt]

/-- What the return of `main` adds to the trace. -/
theorem execM_ret_trace (ld pd : Bool) (g : Globals) :
    ∃ added, (execM ld pd .ret g).trace = g.trace ++ added ∧
      Action.smtpDrain ∉ added ∧ Action.pop3Drain ∉ added ∧ Action.smtpStop ∉ added := by
  cases ld <;> cases pd <;> cases h : g.logf <;>
    simp [execM, closeLogFile, logAt, emit, h]

/-- The invariant survives a step that appends `added` to the trace, provided a Drain
call or a Stop of the SMTP server is only added when what must precede it is there. -/
theorem inv_extend {s : Sys} (h : Inv s) (s2 : Sys) (added : List Action)
    (htr : s2.g.trace = s.g.trace ++ added)
    (hd1 : Action.smtpDrain ∈ added →
      added = [.smtpDrain] ∧ List.Sublist [.webStop, .smtpStop] s.g.trace)
    (hd2 : Action.pop3Drain ∈ added →
      added = [.pop3Drain] ∧
        List.Sublist [.webStop, .smtpStop, .smtpDrain, .smtpDrainReturn] s.g.trace)
    (hst : Action.smtpStop ∈ added → added = [.smtpStop] ∧ Action.webStop ∈ s.g.trace)
    (hok : ∀ i ∈ s2.handler, okH i = true)
    (hch : List.Chain' stopFollowsWebStop s2.handler)
    (hhd : s2.handler.head? = some .stopSmtpOrReport → Action.webStop ∈ s2.g.trace)
    (h8 : 8 ≤ s2.pc → 8 ≤ s.pc ∨ Action.smtpStop ∈ s.g.trace)
    (h9 : 9 ≤ s2.pc → 9 ≤ s.pc ∨ (8 ≤ s.pc ∧ added = [.smtpDrain]))
    (h10 : 10 ≤ s2.pc → 10 ≤ s.pc ∨ (9 ≤ s.pc ∧ added = [.smtpDrainReturn])) :
    Inv s2 := by
  have mono : ∀ {l : List Action}, List.Sublist l s.g.trace → List.Sublist l s2.g.trace := by
    intro l hl
    rw [htr]
    exact hl.trans (List.sublist_append_left _ _)
  refine ⟨?_, ?_, ?_, hok, hch, hhd, ?_, ?_, ?_⟩
  · intro hmem
    rw [htr, List.mem_append] at hmem
    rcases hmem with hmem | hmem
    · exact mono (h.stopAfterWeb hmem)
    · obtain ⟨hadd, hweb⟩ := hst hmem
      rw [htr, hadd]
      exact (List.singleton_sublist.mpr hweb).append (List.Sublist.refl [Action.smtpStop])
  · rw [htr]
    by_cases hmem : Action.smtpDrain ∈ added
    · obtain ⟨hadd, hsub⟩ := hd1 hmem
      rw [hadd]
      exact comesAfter_concat h.drainSmtp hsub
    · exact comesAfter_append h.drainSmtp added hmem
  · rw [htr]
    by_cases hmem : Action.pop3Drain ∈ added
    · obtain ⟨hadd, hsub⟩ := hd2 hmem
      rw [hadd]
      exact comesAfter_concat h.drainPop3 hsub
    · exact comesAfter_append h.drainPop3 added hmem
  · intro hpc
    rcases h8 hpc with h1 | h1
    · exact mono (h.pc8 h1)
    · exact mono (h.stopAfterWeb h1)
  · intro hpc
    rcases h9 hpc with h1 | ⟨h1, hadd⟩
    · exact mono (h.pc9 h1)
    · rw [htr, hadd]
      exact (h.pc8 h1).append (List.Sublist.refl [Action.smtpDrain])
  · intro hpc
    rcases h10 hpc with h1 | ⟨h1, hadd⟩
    · exact mono (h.pc10 h1)
    · rw [htr, hadd]
      exact (h.pc9 h1).append (List.Sublist.refl [Action.smtpDrainReturn])

/-- What the statement of `main` at index `pc` adds to the trace. -/
theorem execM_trace (ld pd : Bool) (g : Globals) (pc : Nat) (i : MInstr)
    (hi : program[pc]? = some i) :
    ∃ added, (execM ld pd i g).trace = g.trace ++ added ∧
      Action.smtpStop ∉ added ∧
      (Action.smtpDrain ∈ added → pc = 8) ∧ (Action.pop3Drain ∈ added → pc = 10) ∧
      (pc = 7 → i = .startReturns) ∧ (pc = 8 → added = [.smtpDrain]) ∧
      (pc = 9 → added = [.smtpDrainReturn]) ∧ (pc = 10 → added = [.pop3Drain]) := by
  by_cases hlt : pc < 13
  · by_cases h12 : pc = 12
    · subst h12
      simp [program, startServices, shutdownServices] at hi
      subst hi
      obtain ⟨added, h1, h2, h3, h4⟩ := execM_ret_trace ld pd g
      exact ⟨added, h1, h4, by simp [h2], by simp [h3], by simp⟩
    · have hlt2 : pc < 12 := by omega
      interval_cases pc <;>
        simp [program, startServices, shutdownServices] at hi <;> subst hi <;>
        simp [execM, emit]
  · have : program[pc]? = none := by
      rw [List.getElem?_eq_none_iff]
      simp [program, startServices, shutdownServices]
      omega
    rw [this] at hi
    exact absurd hi (by simp)

/-- The invariant is preserved by every step of every goroutine. -/
theorem step_inv (env : Env) (fl : Flags) (t : Thread) (s : Sys) (h : Inv s) :
    Inv (step env fl t s) := by
  unfold step
  split
  · exact h
  · cases t with
    | main =>
      dsimp only
      split
      · exact h
      · rename_i i hi
        split
        · rename_i hen
          obtain ⟨added, htr, hst, hd1, hd2, h7, h8, h9, h10⟩ :=
            execM_trace s.logDeferred s.pidDeferred s.g s.pc i hi
          refine inv_extend h _ added htr ?_ ?_ ?_ h.handlerOk h.handlerChain ?_ ?_ ?_ ?_
          · intro hm
            have hpc := hd1 hm
            exact ⟨h8 hpc, h.pc8 (by omega)⟩
          · intro hm
            have hpc := hd2 hm
            exact ⟨h10 hpc, h.pc10 (by omega)⟩
          · intro hm
            exact absurd hm hst
          · intro hh
            simp only [htr, List.mem_append]
            exact Or.inl (h.handlerHead hh)
          · intro hpc
            simp only at hpc
            by_cases h78 : s.pc = 7
            · right
              have := h7 h78
              subst this
              simpa [enabledM, startMayReturn] using hen
            · left; omega
          · intro hpc
            simp only at hpc
            by_cases h78 : s.pc = 8
            · exact Or.inr ⟨by omega, h8 h78⟩
            · left; omega
          · intro hpc
            simp only at hpc
            by_cases h78 : s.pc = 9
            · exact Or.inr ⟨by omega, h9 h78⟩
            · left; omega
        · exact h
    | signal =>
      dsimp only
      split
      · rename_i i rest hh
        have hoki : okH i = true := h.handlerOk i (by rw [hh]; simp)
        obtain ⟨added, htr, hd1, hd2, hst, hweb⟩ := execH_trace env fl i s.g hoki
        have hchain : List.Chain' stopFollowsWebStop (i :: rest) := by
          rw [← hh]; exact h.handlerChain
        refine inv_extend h _ added htr ?_ ?_ ?_ ?_ ?_ ?_ ?_ ?_ ?_
        · intro hm; exact absurd hm hd1
        · intro hm; exact absurd hm hd2
        · intro hm
          obtain ⟨hi, hadd⟩ := hst hm
          exact ⟨hadd, h.handlerHead (by rw [hh, hi]; rfl)⟩
        · intro j hj
          exact h.handlerOk j (by rw [hh]; exact List.mem_cons_of_mem _ hj)
        · exact hchain.tail
        · intro hhead
          simp only at hhead
          cases rest with
          | nil => simp at hhead
          | cons y rest =>
            simp only [List.head?_cons, Option.some.injEq] at hhead
            have hrel := (List.chain'_cons.mp hchain).1
            have hi := hrel hhead
            simp only [htr, List.mem_append]
            exact Or.inr (hweb hi)
        · intro hpc; exact Or.inl hpc
        · intro hpc; exact Or.inl hpc
        · intro hpc; exact Or.inl hpc
      · split
        · exact h
        · rename_i sig ps hp
          obtain ⟨hok, hch, hhd⟩ := handlerCode_ok s.g sig
          exact ⟨h.stopAfterWeb, h.drainSmtp, h.drainPop3, hok, hch,
            fun hx => absurd hx hhd, h.pc8, h.pc9, h.pc10⟩
    | watchdog =>
      dsimp only
      split
      · refine inv_extend h _ _ (timedExit_trace s.g) ?_ ?_ ?_ h.handlerOk h.handlerChain ?_
          (fun hpc => Or.inl hpc) (fun hpc => Or.inl hpc) (fun hpc => Or.inl hpc)
        · intro hm; simp at hm
        · intro hm; simp at hm
        · intro hm; simp at hm
        · intro hh
          simp only [timedExit_trace, List.mem_append]
          exact Or.inl (h.handlerHead hh)
      · exact h

/-- The invariant holds along every schedule. -/
theorem run_inv (env : Env) (fl : Flags) (sched : List Thread) (s : Sys) (h : Inv s) :
    Inv (run env fl sched s) := by
  induction sched generalizing s with
  | nil => exact h
  | cons t rest ih => exact ih (step env fl t s) (step_inv env fl t s h)

/-- The invariant holds when `main` reaches the start of the services, if neither a
Stop of the SMTP server nor a Drain has been called before. -/
theorem boot_inv (g0 : Globals) (ld pd : Bool) (pending : List Signal)
    (h0 : Action.smtpStop ∉ g0.trace ∧ Action.smtpDrain ∉ g0.trace ∧
      Action.pop3Drain ∉ g0.trace) :
    Inv (boot g0 ld pd pending) := by
  refine ⟨fun hm => absurd hm h0.1, ?_, ?_, by simp [boot], by simp [boot], by simp [boot],
    by simp [boot], by simp [boot], by simp [boot]⟩
  · intro p q hpq
    exact absurd (by rw [show (boot g0 ld pd pending).g.trace = g0.trace from rfl] at hpq
                     rw [hpq]; simp) h0.2.1
  · intro p q hpq
    exact absurd (by rw [show (boot g0 ld pd pending).g.trace = g0.trace from rfl] at hpq
                     rw [hpq]; simp) h0.2.2

/-- C9 (as stated, refuted): when a second SIGTERM is handled while `main` is inside
`smtpServer.Drain()`, the run ends through the return of `main` (exit 0) and its trace
has a `web.Stop()` and a `smtpServer.Stop()` after the call of `smtpServer.Drain()`:
not every Stop request precedes the Drain calls. -/
theorem stop_requests_after_drain :
    (run okEnv plainFlags sigtermDuringDrain
        (boot Globals.init false false [.SIGTERM, .SIGTERM])).g.trace =
      [.defaultFileDataStore, .webInitialize, .goWebStart, .pop3New, .goPop3Start,
        .newSmtpServer, .smtpStart,
        .logMsg .info "Received SIGTERM, shutting down" .stderr, .goTimedExit, .webStop,
        .smtpStop, .smtpStartReturn, .smtpDrain,
        .logMsg .info "Received SIGTERM, shutting down" .stderr, .goTimedExit, .webStop,
        .smtpStop, .smtpDrainReturn, .pop3Drain, .pop3DrainReturn, .exit 0] ∧
    ¬ StopsPrecedeDrains
      (run okEnv plainFlags sigtermDuringDrain
        (boot Globals.init false false [.SIGTERM, .SIGTERM])).g.trace := by
  have htr : (run okEnv plainFlags sigtermDuringDrain
        (boot Globals.init false false [.SIGTERM, .SIGTERM])).g.trace =
      [.defaultFileDataStore, .webInitialize, .goWebStart, .pop3New, .goPop3Start,
        .newSmtpServer, .smtpStart,
        .logMsg .info "Received SIGTERM, shutting down" .stderr, .goTimedExit, .webStop,
        .smtpStop, .smtpStartReturn, .smtpDrain,
        .logMsg .info "Received SIGTERM, shutting down" .stderr, .goTimedExit, .webStop,
        .smtpStop, .smtpDrainReturn, .pop3Drain, .pop3DrainReturn, .exit 0] := by
    decide
  refine ⟨htr, ?_⟩
  intro h
  have h2 := (h [.defaultFileDataStore, .webInitialize, .goWebStart, .pop3New, .goPop3Start,
        .newSmtpServer, .smtpStart,
        .logMsg .info "Received SIGTERM, shutting down" .stderr, .goTimedExit, .webStop,
        .smtpStop, .smtpStartReturn, .smtpDrain,
        .logMsg .info "Received SIGTERM, shutting down" .stderr, .goTimedExit]
      [.smtpStop, .smtpDrainReturn, .pop3Drain, .pop3DrainReturn, .exit 0]
      (Or.inl (by rw [htr]; rfl))).1
  exact h2 (by decide)

/-- C9 (amended): the SIGTERM case calls `web.Stop()` and then `smtpServer.Stop()` as
consecutive statements, with no wait in between; and in every run, whatever the schedule
and the signals, each call of `smtpServer.Drain()` comes after a `web.Stop()` and a later
`smtpServer.Stop()`, and each call of `pop3Server.Drain()` comes after these two Stop
calls, the call of `smtpServer.Drain()` and its return, in this order. A SIGTERM handled
later may add further Stop calls after the drains have begun. -/
theorem shutdown_order (env : Env) (fl : Flags) (g0 : Globals) (ld pd : Bool)
    (pending : List Signal) (sched : List Thread)
    (h0 : Action.smtpStop ∉ g0.trace ∧ Action.smtpDrain ∉ g0.trace ∧
      Action.pop3Drain ∉ g0.trace) :
    (∀ g : Globals, g.smtpServer = true →
      (handleSignal env fl g .SIGTERM).trace = g.trace ++
        [.logMsg .info "Received SIGTERM, shutting down" g.out, .goTimedExit, .webStop,
          .smtpStop]) ∧
    ComesAfter [.webStop, .smtpStop] .smtpDrain
      (run env fl sched (boot g0 ld pd pending)).g.trace ∧
    ComesAfter [.webStop, .smtpStop, .smtpDrain, .smtpDrainReturn] .pop3Drain
      (run env fl sched (boot g0 ld pd pending)).g.trace := by
  have hinv := run_inv env fl sched _ (boot_inv g0 ld pd pending h0)
  refine ⟨?_, hinv.drainSmtp, hinv.drainPop3⟩
  intro g hg
  rw [handleSignal_sigterm]
  simp [hg]

theorem shutdown_order_witness :
    (run okEnv plainFlags normalShutdown (boot Globals.init false false [.SIGTERM])).g.trace =
      [.defaultFileDataStore, .webInitialize, .goWebStart, .pop3New, .goPop3Start,
        .newSmtpServer, .smtpStart,
        .logMsg .info "Received SIGTERM, shutting down" .stderr, .goTimedExit, .webStop,
        .smtpStop, .smtpStartReturn, .smtpDrain, .smtpDrainReturn, .pop3Drain,
        .pop3DrainReturn, .exit 0] ∧
    List.Sublist [Action.webStop, Action.smtpStop, Action.smtpDrain, Action.smtpDrainReturn]
      [.defaultFileDataStore, .webInitialize, .goWebStart, .pop3New, .goPop3Start,
        .newSmtpServer, .smtpStart,
        .logMsg .info "Received SIGTERM, shutting down" .stderr, .goTimedExit, .webStop,
        .smtpStop, .smtpStartReturn, .smtpDrain, .smtpDrainReturn] :=
  ⟨by decide,
    (shutdown_order okEnv plainFlags Globals.init false false [.SIGTERM] normalShutdown
      (by decide)).2.2 _ [.pop3DrainReturn, .exit 0] (by decide)⟩

end Inbucket
